import Mathlib

set_option maxRecDepth 100000
set_option maxHeartbeats 1000000

/-!
Verification development for the yield-tokenizer instruction processor
(`src/program/src/processor.rs`).  The definitions below are a shallow
embedding of that processor: account snapshots become a Lean structure,
each handler becomes a function from its account list and the clock
reading to a result, and every call into the external ledger services
(token program, system program, associated-token program) is recorded as
an explicit event.  Machine integers are modelled as `Nat`/`Int`; the
`f64` round trip performed by `spl_token::ui_amount_to_amount` is
modelled exactly (round-to-nearest-even to a 53-bit significand,
saturating cast back to `u64`).
-/

/-- Addresses (Solana `Pubkey`s) are modelled as natural numbers. -/
abbrev Pubkey := Nat

/-- Identity of this program (`crate::id()` in the source). -/
def crateId : Pubkey := 0

/-- Identity of the SPL token program (`spl_token::id()`). -/
def splTokenId : Pubkey := 1

/-- Identity of the system program (`system_program::id()`). -/
def systemProgramId : Pubkey := 2

/-- Identity of the associated-token-account program
(`spl_associated_token_account::id()`). -/
def atokenProgramId : Pubkey := 3

/-- Injective encoding of an `i64` timestamp into a natural number,
used only inside address derivation. -/
def encodeExpiry (e : Int) : Nat := (e + 2 ^ 63).toNat

/-- Deterministic address-derivation hash.  Real derivation is a SHA-256
based map into 32-byte addresses; we model it as a tagged pairing
reduced below `2^250`, kept disjoint from the program-identity
constants by the offset.  Like the real hash it is deterministic and
collision-resistant in practice, and the result always fits in the
32-byte address encoding. -/
def deriveHash (tag x : Nat) : Pubkey :=
  10 + (Nat.pair tag x) % (2 ^ 250)

/-- Model of `spl_associated_token_account::get_associated_token_address`:
a deterministic map from `(wallet, mint)` to a canonical address. -/
def getAssociatedTokenAddress (wallet mint : Pubkey) : Pubkey :=
  deriveHash 3 (Nat.pair wallet mint)

/-- Model of `get_tokenizer_address`: PDA derived from
`("tokenizer", underlying_mint, expiry_date)`, together with its bump. -/
def getTokenizerAddress (mint : Pubkey) (expiry : Int) : Pubkey × Nat :=
  (deriveHash 0 (Nat.pair mint (encodeExpiry expiry)), 255)

/-- Model of `get_principal_mint_address`: PDA derived from
`("principal", tokenizer_address)`. -/
def getPrincipalMintAddress (tokenizer : Pubkey) : Pubkey × Nat :=
  (deriveHash 1 tokenizer, 254)

/-- Model of `get_yield_mint_address`: PDA derived from
`("yield", tokenizer_address)`. -/
def getYieldMintAddress (tokenizer : Pubkey) : Pubkey × Nat :=
  (deriveHash 2 tokenizer, 253)

/-- Snapshot of one `AccountInfo` as the handlers read it.  `data` is the
raw byte content of the account.  `splAmount` models the result of
`spl_token::state::Account::unpack_from_slice` on that data (the SPL
token-account layout itself is external to this repository): `some n`
when the data is a well-formed token account with balance `n`, `none`
when unpacking fails with `InvalidAccountData`. -/
structure AccountInfo where
  key : Pubkey
  owner : Pubkey
  isSigner : Bool
  lamports : Nat
  data : List Nat
  splAmount : Option Nat
  deriving DecidableEq

/-- The persisted tokenizer record (`TokenizerState` in the source: the
processor reads fields `bump`, `authority`, `principal_token_mint`,
`yield_token_mint`, `underlying_mint`, `underlying_vault`,
`expiry_date`, `fixed_apy`). -/
structure TokenizerState where
  bump : Nat
  authority : Pubkey
  principalTokenMint : Pubkey
  yieldTokenMint : Pubkey
  underlyingMint : Pubkey
  underlyingVault : Pubkey
  expiryDate : Int
  fixedApy : Nat
  deriving DecidableEq

/-- Modelled from the spec: the `state` module's `STATE_SIZE` constant is
not under `src/` (only an older `state.rs` variant without the `bump`
field is).  The spec requires the declared size to match the encoded
size of the record exactly, so we take the Borsh size of the struct the
processor actually deserializes: 1 (bump) + 5·32 (pubkeys) + 8 (i64)
+ 8 (u64) = 177 bytes. -/
def STATE_SIZE : Nat := 177

/-- Little-endian byte encoding: `leBytes w n` is the `w`-byte
little-endian encoding of `n % 256^w`. -/
def leBytes : Nat → Nat → List Nat
  | 0, _ => []
  | w + 1, n => n % 256 :: leBytes w (n / 256)

/-- Little-endian byte decoding, inverse of `leBytes` on byte lists. -/
def fromLeBytes : List Nat → Nat
  | [] => 0
  | b :: t => b + 256 * fromLeBytes t

/-- Two's-complement encoding of an `i64` as a natural below `2^64`. -/
def encodeI64 (i : Int) : Nat := (i % (2 ^ 64 : Int)).toNat

/-- Two's-complement reading of a natural below `2^64` as an `i64`. -/
def decodeI64 (n : Nat) : Int :=
  if n < 2 ^ 63 then (n : Int) else (n : Int) - 2 ^ 64

/-- Borsh serialization of the tokenizer record, as written by
`lysergic_tokenizer_state.serialize(...)`. -/
def serializeState (s : TokenizerState) : List Nat :=
  leBytes 1 s.bump ++ leBytes 32 s.authority ++
  leBytes 32 s.principalTokenMint ++ leBytes 32 s.yieldTokenMint ++
  leBytes 32 s.underlyingMint ++ leBytes 32 s.underlyingVault ++
  leBytes 8 (encodeI64 s.expiryDate) ++ leBytes 8 s.fixedApy

/-- Borsh deserialization `TokenizerState::try_from_slice`:
succeeds exactly on buffers of the struct's exact size (every byte
pattern is a valid value for these field types, and Borsh requires the
whole slice to be consumed). -/
def parseState (b : List Nat) : Option TokenizerState :=
  if b.length = STATE_SIZE then
    some {
      bump := fromLeBytes (b.take 1)
      authority := fromLeBytes ((b.drop 1).take 32)
      principalTokenMint := fromLeBytes ((b.drop 33).take 32)
      yieldTokenMint := fromLeBytes ((b.drop 65).take 32)
      underlyingMint := fromLeBytes ((b.drop 97).take 32)
      underlyingVault := fromLeBytes ((b.drop 129).take 32)
      expiryDate := decodeI64 (fromLeBytes ((b.drop 161).take 8))
      fixedApy := fromLeBytes ((b.drop 169).take 8) }
  else none

/-- Number of halvings needed to bring `n` below `2^53`; this is the
binary exponent of the unit in the last place of the `f64` nearest to
`n` once `n` is at least `2^53`.  `fuel` bounds the recursion; `100` is
ample for every value that arises (all are below `2^90`). -/
def f64Exp : Nat → Nat → Nat
  | 0, _ => 0
  | fuel + 1, n => if n < 2 ^ 53 then 0 else f64Exp fuel (n / 2) + 1

/-- Rounding of a natural number to the nearest `f64` (IEEE 754 binary64,
round to nearest, ties to even), returned as a natural number.  Exact
for `n < 2^53`; above that the value is rounded to a multiple of
`2^(bits(n) - 53)`. -/
def rndF64 (n : Nat) : Nat :=
  if n < 2 ^ 53 then n
  else
    let e := f64Exp 100 n
    let q := n / 2 ^ e
    let r := n % 2 ^ e
    if 2 * r < 2 ^ e then q * 2 ^ e
    else if 2 ^ e < 2 * r then (q + 1) * 2 ^ e
    else if q % 2 = 0 then q * 2 ^ e else (q + 1) * 2 ^ e

/-- Model of `spl_token::ui_amount_to_amount(amount as f64, 6)` as the
processor uses it: the `u64` amount is converted to `f64`
(round-to-nearest-even), multiplied by the exactly representable
`1000000.0` (the product is rounded to the nearest `f64` again), and
cast back to `u64` (Rust float-to-int casts saturate, so any value at or
above `2^64` becomes `u64::MAX`). -/
def uiAmountToAmount6 (a : Nat) : Nat :=
  let y := rndF64 (rndF64 a * 1000000)
  if 2 ^ 64 ≤ y then 2 ^ 64 - 1 else y

/-- Errors observable from the handlers (`TokenizerError` variants plus
the `ProgramError` variants the processor returns; `borshIoError` is the
`ProgramError` produced by the `?` on a failed `try_from_slice`). -/
inductive Err
  | notEnoughAccountKeys
  | missingRequiredSignature
  | incorrectProgramId
  | invalidAccountData
  | borshIoError
  | incorrectTokenizerAddress
  | incorrectVaultAddress
  | incorrectUnderlyingMintAddress
  | incorrectPrincipalMintAddress
  | incorrectYieldMintAddress
  | invalidUserAccount
  | tokenizerNotInitialized
  | tokenizerAlreadyInitialized
  | invalidExpiryDate
  | expiryDateElapsed
  | expiryDateNotElapsed
  | unauthorised
  | insufficientFunds
  | vaultNotEmpty
  deriving DecidableEq

/-- A call delegated to an external service, recorded verbatim with the
arguments the processor passes. -/
inductive Event
  | sysCreateAccount (payer newAcct : Pubkey) (lamports size : Nat) (progOwner : Pubkey)
  | createATA (payer wallet mint tokenProg : Pubkey)
  | tokTransfer (source dest authority : Pubkey) (amount : Nat)
  | tokMintTo (mint dest authority : Pubkey) (amount : Nat)
  | tokBurn (source mint authority : Pubkey) (amount : Nat)
  | tokInitMint2 (mint authority : Pubkey) (decimals : Nat)
  | tokCloseAccount (acct dest authority : Pubkey)
  | sysTransfer (source dest : Pubkey) (lamports : Nat)
  deriving DecidableEq

/-- Result of one handler run.  `ok` carries the account snapshots after
the handler's direct writes together with the full trace of delegated
calls; `fail` carries the error and the calls already delegated before
the failing check (the host rolls the whole instruction back on failure,
so `fail` carries no account updates); `panicked` models a Rust panic
(out-of-range slice index or `expect` on `None`). -/
inductive HRes
  | ok (accs : List AccountInfo) (events : List Event)
  | fail (e : Err) (events : List Event)
  | panicked (events : List Event)
  deriving DecidableEq

/-- Events of a result, whether it succeeded or not. -/
def HRes.events : HRes → List Event
  | .ok _ evs => evs
  | .fail _ evs => evs
  | .panicked evs => evs

/-- Embedding of `process_initialize_lysergic_tokenizer`
(processor.rs lines 105-258).  The `Expiry` payload type and its
`to_expiry_date` method live in a module that is not under `src/`;
modelled from the spec, the instruction here carries the already
resolved optional expiry date (`none` models a resolution failure, on
which the source's `.expect(...)` panics).  `rentMin` is the clock-side
collaborator `Rent::minimum_balance`. -/
def processInitializeLysergicTokenizer (accs : List AccountInfo)
    (underlyingMint principalTokenMint yieldTokenMint : Pubkey)
    (expiry : Option Int) (fixedApy : Nat) (rentMin : Nat → Nat) : HRes :=
  match accs with
  | tokenizer :: authority :: vault :: underlyingMintAcc :: tokenProg ::
      sysProg :: atokenProg :: furtherAccs =>
    match expiry with
    | none => .panicked []
    | some expiryDate =>
      let dz := getTokenizerAddress underlyingMintAcc.key expiryDate
      let tokenizerKey := dz.1
      let bump := dz.2
      let principalMint := (getPrincipalMintAddress tokenizerKey).1
      let yieldMint := (getYieldMintAddress tokenizerKey).1
      if tokenizer.key ≠ tokenizerKey then .fail .incorrectTokenizerAddress []
      else if !authority.isSigner then .fail .missingRequiredSignature []
      else if vault.key ≠ getAssociatedTokenAddress tokenizer.key underlyingMint then
        .fail .incorrectVaultAddress []
      else if underlyingMint ≠ underlyingMintAcc.key then
        .fail .incorrectUnderlyingMintAddress []
      else if principalTokenMint ≠ principalMint then
        .fail .incorrectPrincipalMintAddress []
      else if yieldTokenMint ≠ yieldMint then
        .fail .incorrectYieldMintAddress []
      else if tokenProg.key ≠ splTokenId then .fail .incorrectProgramId []
      else if atokenProg.key ≠ atokenProgramId then .fail .incorrectProgramId []
      else if sysProg.key ≠ systemProgramId then .fail .incorrectProgramId []
      else if tokenizer.owner ≠ crateId then
        let requiredLamports := max (rentMin STATE_SIZE) 1 - tokenizer.lamports
        let st : TokenizerState := {
          bump := bump
          authority := authority.key
          principalTokenMint := principalTokenMint
          yieldTokenMint := yieldTokenMint
          underlyingMint := underlyingMint
          underlyingVault := vault.key
          expiryDate := expiryDate
          fixedApy := fixedApy }
        -- the create_account call makes the record owned by this program
        -- and sized STATE_SIZE; the handler then serializes the record
        -- into it directly.
        let tokenizerAfter : AccountInfo :=
          { tokenizer with owner := crateId, data := serializeState st }
        .ok (tokenizerAfter :: authority :: vault :: underlyingMintAcc ::
             tokenProg :: sysProg :: atokenProg :: furtherAccs)
          [.sysCreateAccount authority.key tokenizerKey requiredLamports STATE_SIZE crateId,
           .createATA authority.key tokenizer.key underlyingMint tokenProg.key]
      else .fail .tokenizerAlreadyInitialized []
  | _ => .fail .notEnoughAccountKeys []

/-- Embedding of `process_deposit_underlying` (processor.rs lines
486-549).  Note the source order: the record's data is sliced to
`STATE_SIZE` bytes and deserialized (a Rust panic when the data is
shorter) before the owner check runs. -/
def processDepositUnderlying (accs : List AccountInfo) (amount : Nat)
    (_now : Int) : HRes :=
  match accs with
  | tokenizer :: vault :: user :: userUnderlying :: tokenProg :: _ =>
    let amt := uiAmountToAmount6 amount
    if tokenizer.data.length < STATE_SIZE then .panicked []
    else
      match parseState (tokenizer.data.take STATE_SIZE) with
      | none => .fail .borshIoError []
      | some st =>
        if tokenizer.owner ≠ crateId then .fail .tokenizerNotInitialized []
        else if vault.owner ≠ splTokenId then .fail .incorrectVaultAddress []
        else if vault.key ≠ st.underlyingVault then .fail .incorrectVaultAddress []
        else if !user.isSigner then .fail .missingRequiredSignature []
        else if userUnderlying.key ≠
            getAssociatedTokenAddress user.key st.underlyingMint then
          .fail .invalidUserAccount []
        else if tokenProg.key ≠ splTokenId then .fail .incorrectProgramId []
        else .ok accs [.tokTransfer userUnderlying.key vault.key user.key amt]
  | _ => .fail .notEnoughAccountKeys []

/-- Embedding of `process_tokenize_principal` (processor.rs lines
551-648).  The two extra accounts for the lazy associated-account
creation are read from the iterator only inside that branch. -/
def processTokenizePrincipal (accs : List AccountInfo) (amount : Nat)
    (now : Int) : HRes :=
  match accs with
  | tokenizer :: pmint :: user :: userPrincipal :: tokenProg :: rest =>
    let amt := uiAmountToAmount6 amount
    if tokenizer.owner ≠ crateId then .fail .tokenizerNotInitialized []
    else
      match parseState tokenizer.data with
      | none => .fail .borshIoError []
      | some st =>
        if st.expiryDate < now then .fail .expiryDateElapsed []
        else if pmint.key ≠ st.principalTokenMint then
          .fail .incorrectPrincipalMintAddress []
        else if userPrincipal.key ≠
            getAssociatedTokenAddress user.key st.principalTokenMint then
          .fail .invalidUserAccount []
        else if tokenProg.key ≠ splTokenId then .fail .incorrectProgramId []
        else if userPrincipal.owner ≠ tokenProg.key then
          match rest with
          | sysProg :: atokenProg :: _ =>
            if sysProg.key ≠ systemProgramId then .fail .incorrectProgramId []
            else if atokenProg.key ≠ atokenProgramId then .fail .incorrectProgramId []
            else .ok accs
              [.createATA user.key user.key st.principalTokenMint tokenProg.key,
               .tokMintTo pmint.key userPrincipal.key tokenizer.key amt]
          | _ => .fail .notEnoughAccountKeys []
        else .ok accs [.tokMintTo pmint.key userPrincipal.key tokenizer.key amt]
  | _ => .fail .notEnoughAccountKeys []

/-- Embedding of `process_tokenize_yield` (processor.rs lines 650-746),
symmetric to `processTokenizePrincipal` for the yield mint. -/
def processTokenizeYield (accs : List AccountInfo) (amount : Nat)
    (now : Int) : HRes :=
  match accs with
  | tokenizer :: ymint :: user :: userYield :: tokenProg :: rest =>
    let amt := uiAmountToAmount6 amount
    if tokenizer.owner ≠ crateId then .fail .tokenizerNotInitialized []
    else
      match parseState tokenizer.data with
      | none => .fail .borshIoError []
      | some st =>
        if st.expiryDate < now then .fail .expiryDateElapsed []
        else if ymint.key ≠ st.yieldTokenMint then
          .fail .incorrectYieldMintAddress []
        else if userYield.key ≠
            getAssociatedTokenAddress user.key st.yieldTokenMint then
          .fail .invalidUserAccount []
        else if tokenProg.key ≠ splTokenId then .fail .incorrectProgramId []
        else if userYield.owner ≠ tokenProg.key then
          match rest with
          | sysProg :: atokenProg :: _ =>
            if sysProg.key ≠ systemProgramId then .fail .incorrectProgramId []
            else if atokenProg.key ≠ atokenProgramId then .fail .incorrectProgramId []
            else .ok accs
              [.createATA user.key user.key st.yieldTokenMint tokenProg.key,
               .tokMintTo ymint.key userYield.key tokenizer.key amt]
          | _ => .fail .notEnoughAccountKeys []
        else .ok accs [.tokMintTo ymint.key userYield.key tokenizer.key amt]
  | _ => .fail .notEnoughAccountKeys []

/-- Embedding of `process_deposit_and_tokenize` (processor.rs lines
748-795): re-slices its account list into the three sub-bundles and runs
the three single-purpose handlers in sequence, accumulating their
delegated calls. -/
def processDepositAndTokenize (accs : List AccountInfo) (amount : Nat)
    (now : Int) : HRes :=
  match accs with
  | tokenizer :: vault :: pmint :: ymint :: user :: userUnderlying ::
      userPrincipal :: userYield :: tokenProg :: sysProg :: atokenProg :: _ =>
    let depositAccounts := [tokenizer, vault, user, userUnderlying, tokenProg]
    let tokenizePrincipalAccounts :=
      [tokenizer, pmint, user, userPrincipal, tokenProg, sysProg, atokenProg]
    let tokenizeYieldAccounts :=
      [tokenizer, ymint, user, userYield, tokenProg, sysProg, atokenProg]
    match processDepositUnderlying depositAccounts amount now with
    | .panicked e1 => .panicked e1
    | .fail er e1 => .fail er e1
    | .ok _ e1 =>
      match processTokenizePrincipal tokenizePrincipalAccounts amount now with
      | .panicked e2 => .panicked (e1 ++ e2)
      | .fail er e2 => .fail er (e1 ++ e2)
      | .ok _ e2 =>
        match processTokenizeYield tokenizeYieldAccounts amount now with
        | .panicked e3 => .panicked (e1 ++ e2 ++ e3)
        | .fail er e3 => .fail er (e1 ++ e2 ++ e3)
        | .ok _ e3 => .ok accs (e1 ++ e2 ++ e3)
  | _ => .fail .notEnoughAccountKeys []

/-- The two redemption modes of `process_redeem_principal`
(`RedemptionMode` in the source). -/
inductive RedemptionMode
  | mature
  | principalYield
  deriving DecidableEq

/-- Common tail of `process_redeem_principal` and `process_claim_yield`
(processor.rs lines 927-991 and 1058-1122): if the caller's underlying
token account is not owned by the token program, read one further
account (the system program), check it, and delegate the
associated-account creation — with the token account's own address as
the wallet argument and the caller's address as the token-program
argument, exactly as the source passes them — then delegate the burn
and the vault payout. -/
def finishRedemption (user userUnderlying tokenProg : AccountInfo)
    (underlyingMint : Pubkey) (rest accs : List AccountInfo)
    (burnEv payEv : Event) : HRes :=
  if userUnderlying.owner ≠ tokenProg.key then
    match rest with
    | sysProg :: _ =>
      if sysProg.key ≠ systemProgramId then .fail .incorrectProgramId []
      else .ok accs
        [.createATA user.key userUnderlying.key underlyingMint user.key,
         burnEv, payEv]
    | _ => .fail .notEnoughAccountKeys []
  else .ok accs [burnEv, payEv]

/-- Embedding of `process_redeem_principal` (processor.rs lines
847-992).  In `Mature` mode the handler requires the expiry date to lie
strictly in the past (`expiry_date >= now` fails); in `PrincipalYield`
mode the time gate is skipped entirely.  When the caller's underlying
token account is not owned by the token program, the handler reads one
further account (the system program) and delegates an
associated-account creation — passing, as the source does, the token
account's own address as the wallet argument and the caller's address
as the token-program argument. -/
def processRedeemPrincipal (accs : List AccountInfo) (mode : RedemptionMode)
    (amount : Nat) (now : Int) : HRes :=
  match accs with
  | tokenizer :: vault :: underlyingMintAcc :: pmint :: user ::
      userUnderlying :: userPrincipal :: tokenProg :: rest =>
    let amt := uiAmountToAmount6 amount
    if tokenizer.owner ≠ crateId then .fail .tokenizerNotInitialized []
    else
      match parseState tokenizer.data with
      | none => .fail .borshIoError []
      | some st =>
        if mode = .mature ∧ st.expiryDate ≥ now then
          .fail .expiryDateNotElapsed []
        else if vault.owner ≠ splTokenId then .fail .incorrectVaultAddress []
        else if vault.key ≠ st.underlyingVault then .fail .incorrectVaultAddress []
        else if underlyingMintAcc.key ≠ st.underlyingMint then
          .fail .incorrectUnderlyingMintAddress []
        else if pmint.key ≠ st.principalTokenMint then
          .fail .incorrectPrincipalMintAddress []
        else if !user.isSigner then .fail .missingRequiredSignature []
        else if userUnderlying.key ≠
            getAssociatedTokenAddress user.key st.underlyingMint then
          .fail .invalidUserAccount []
        else if userPrincipal.key ≠
            getAssociatedTokenAddress user.key st.principalTokenMint then
          .fail .invalidUserAccount []
        else if tokenProg.key ≠ splTokenId then .fail .incorrectProgramId []
        else
          match userPrincipal.splAmount with
          | none => .fail .invalidAccountData []
          | some bal =>
            if bal < amt then .fail .insufficientFunds []
            else
              finishRedemption user userUnderlying tokenProg st.underlyingMint
                rest (tokenizer :: vault :: underlyingMintAcc :: pmint :: user ::
                  userUnderlying :: userPrincipal :: tokenProg :: rest)
                (.tokBurn userPrincipal.key pmint.key user.key amt)
                (.tokTransfer vault.key userUnderlying.key tokenizer.key amt)
  | _ => .fail .notEnoughAccountKeys []

/-- Embedding of `process_redeem_mature_principal` (processor.rs lines
843-845): delegates to `process_redeem_principal` in `Mature` mode. -/
def processRedeemMaturePrincipal (accs : List AccountInfo) (amount : Nat)
    (now : Int) : HRes :=
  processRedeemPrincipal accs .mature amount now

/-- Embedding of `process_claim_yield` (processor.rs lines 994-1124).
There is no time gate; the underlying-mint account is read but its
address is never validated.  The lazy associated-account creation
passes the same argument pattern as `processRedeemPrincipal`. -/
def processClaimYield (accs : List AccountInfo) (amount : Nat)
    (_now : Int) : HRes :=
  match accs with
  | tokenizer :: vault :: underlyingMintAcc :: ymint :: user ::
      userUnderlying :: userYield :: tokenProg :: rest =>
    let amt := uiAmountToAmount6 amount
    if tokenizer.owner ≠ crateId then .fail .tokenizerNotInitialized []
    else
      match parseState tokenizer.data with
      | none => .fail .borshIoError []
      | some st =>
        if vault.owner ≠ splTokenId then .fail .incorrectVaultAddress []
        else if vault.key ≠ st.underlyingVault then .fail .incorrectVaultAddress []
        else if ymint.key ≠ st.yieldTokenMint then
          .fail .incorrectYieldMintAddress []
        else if !user.isSigner then .fail .missingRequiredSignature []
        else if userUnderlying.key ≠
            getAssociatedTokenAddress user.key st.underlyingMint then
          .fail .invalidUserAccount []
        else if userYield.key ≠
            getAssociatedTokenAddress user.key st.yieldTokenMint then
          .fail .invalidUserAccount []
        else if tokenProg.key ≠ splTokenId then .fail .incorrectProgramId []
        else
          match userYield.splAmount with
          | none => .fail .invalidAccountData []
          | some bal =>
            if bal < amt then .fail .insufficientFunds []
            else
              finishRedemption user userUnderlying tokenProg st.underlyingMint
                rest (tokenizer :: vault :: underlyingMintAcc :: ymint :: user ::
                  userUnderlying :: userYield :: tokenProg :: rest)
                (.tokBurn userYield.key ymint.key user.key amt)
                (.tokTransfer vault.key userUnderlying.key tokenizer.key amt)
  | _ => .fail .notEnoughAccountKeys []

/-- Embedding of `process_redeem_principal_and_yield` (processor.rs
lines 797-841): re-slices its ten accounts into the redeem-principal
bundle and the claim-yield bundle, runs the principal leg in
`PrincipalYield` mode (no time gate) and then the yield claim for the
same amount. -/
def processRedeemPrincipalAndYield (accs : List AccountInfo) (amount : Nat)
    (now : Int) : HRes :=
  match accs with
  | tokenizer :: vault :: underlyingMintAcc :: pmint :: ymint :: user ::
      userUnderlying :: userPrincipal :: userYield :: tokenProg :: _ =>
    let redeemPrincipalAccounts :=
      [tokenizer, vault, underlyingMintAcc, pmint, user, userUnderlying,
       userPrincipal, tokenProg]
    let claimYieldAccounts :=
      [tokenizer, vault, underlyingMintAcc, ymint, user, userUnderlying,
       userYield, tokenProg]
    match processRedeemPrincipal redeemPrincipalAccounts .principalYield amount now with
    | .panicked e1 => .panicked e1
    | .fail er e1 => .fail er e1
    | .ok _ e1 =>
      match processClaimYield claimYieldAccounts amount now with
      | .panicked e2 => .panicked (e1 ++ e2)
      | .fail er e2 => .fail er (e1 ++ e2)
      | .ok _ e2 => .ok accs (e1 ++ e2)
  | _ => .fail .notEnoughAccountKeys []

/-- Embedding of `process_terminate_lysergic_tokenizer` (processor.rs
lines 1159-1237).  Check order matters: ownership, signature, record
parse, authority, expiry (`expiry_date >= now` fails), vault emptiness,
vault address, program identities; then the record's lamports are
returned to the authority and the record is reassigned to the system
program and shrunk to zero size (a direct write, reflected in the
returned snapshots). -/
def processTerminateLysergicTokenizer (accs : List AccountInfo)
    (now : Int) : HRes :=
  match accs with
  | tokenizer :: authority :: vault :: tokenProg :: sysProg :: rest =>
    if tokenizer.owner ≠ crateId then .fail .tokenizerNotInitialized []
    else if !authority.isSigner then .fail .missingRequiredSignature []
    else
      match parseState tokenizer.data with
      | none => .fail .borshIoError []
      | some st =>
        if authority.key ≠ st.authority then .fail .unauthorised []
        else if st.expiryDate ≥ now then .fail .expiryDateNotElapsed []
        else
          match vault.splAmount with
          | none => .fail .invalidAccountData []
          | some bal =>
            if bal ≠ 0 then .fail .vaultNotEmpty []
            else if vault.key ≠ st.underlyingVault then
              .fail .incorrectVaultAddress []
            else if tokenProg.key ≠ splTokenId then .fail .incorrectProgramId []
            else if sysProg.key ≠ systemProgramId then .fail .incorrectProgramId []
            else
              let tokenizerAfter : AccountInfo :=
                { tokenizer with owner := systemProgramId, data := [] }
              .ok (tokenizerAfter :: authority :: vault :: tokenProg ::
                   sysProg :: rest)
                [.sysTransfer tokenizer.key authority.key tokenizer.lamports]
  | _ => .fail .notEnoughAccountKeys []

/-- Embedding of `process_terminate_mints` (processor.rs lines
1239-1355).  The handler receives no vault account and performs no
vault-balance check; it closes the two mints to the authority and
returns the record's lamports. -/
def processTerminateMints (accs : List AccountInfo) (now : Int) : HRes :=
  match accs with
  | tokenizer :: authority :: pmint :: ymint :: tokenProg :: sysProg :: _ =>
    if tokenizer.owner ≠ crateId then .fail .tokenizerNotInitialized []
    else if !authority.isSigner then .fail .missingRequiredSignature []
    else
      match parseState tokenizer.data with
      | none => .fail .borshIoError []
      | some st =>
        if authority.key ≠ st.authority then .fail .unauthorised []
        else if st.expiryDate ≥ now then .fail .expiryDateNotElapsed []
        else if pmint.key ≠ st.principalTokenMint then
          .fail .incorrectPrincipalMintAddress []
        else if ymint.key ≠ st.yieldTokenMint then
          .fail .incorrectYieldMintAddress []
        else if tokenProg.key ≠ splTokenId then .fail .incorrectProgramId []
        else if sysProg.key ≠ systemProgramId then .fail .incorrectProgramId []
        else .ok accs
          [.tokCloseAccount pmint.key authority.key tokenizer.key,
           .tokCloseAccount ymint.key authority.key tokenizer.key,
           .sysTransfer tokenizer.key authority.key tokenizer.lamports]
  | _ => .fail .notEnoughAccountKeys []

/-- Embedding of `process_terminate` (processor.rs lines 1126-1157).
The source builds `terminate_tokenizer_accounts` (record, authority,
vault, token program, system program) and `terminate_mint_accounts`
(record, authority, principal mint, yield mint, token program, system
program) — and then passes the former to `process_terminate_mints` and
the latter to `process_terminate_lysergic_tokenizer`, i.e. each handler
receives the other's bundle.  The embedding transcribes that wiring
verbatim. -/
def processTerminate (accs : List AccountInfo) (now : Int) : HRes :=
  match accs with
  | tokenizer :: authority :: vault :: pmint :: ymint :: tokenProg ::
      sysProg :: furtherAccs =>
    let terminateTokenizerAccounts :=
      [tokenizer, authority, vault, tokenProg, sysProg]
    let terminateMintAccounts :=
      [tokenizer, authority, pmint, ymint, tokenProg, sysProg]
    match processTerminateMints terminateTokenizerAccounts now with
    | .panicked e1 => .panicked e1
    | .fail er e1 => .fail er e1
    | .ok _ e1 =>
      match processTerminateLysergicTokenizer terminateMintAccounts now with
      | .panicked e2 => .panicked (e1 ++ e2)
      | .fail er e2 => .fail er (e1 ++ e2)
      | .ok accs2 e2 =>
        let tokenizerAfter := accs2.headD tokenizer
        .ok (tokenizerAfter :: authority :: vault :: pmint :: ymint ::
             tokenProg :: sysProg :: furtherAccs) (e1 ++ e2)
  | _ => .fail .notEnoughAccountKeys []

/-!
Concrete scenario used by witnesses and counterexamples: one tokenizer
instance over underlying mint `underK` expiring at time `1000`, with its
canonically derived record, vault, mint and user sub-account addresses.
-/

/-- Concrete underlying-mint address. -/
def underK : Pubkey := 50

/-- Concrete authority address. -/
def authK : Pubkey := 51

/-- Concrete caller address. -/
def userK : Pubkey := 52

/-- Concrete maturity timestamp. -/
def expiry0 : Int := 1000

/-- Derived tokenizer-record address of the scenario. -/
def tokK : Pubkey := (getTokenizerAddress underK expiry0).1

/-- Derived principal-mint address of the scenario. -/
def pmintK : Pubkey := (getPrincipalMintAddress tokK).1

/-- Derived yield-mint address of the scenario. -/
def ymintK : Pubkey := (getYieldMintAddress tokK).1

/-- Derived vault address of the scenario. -/
def vaultK : Pubkey := getAssociatedTokenAddress tokK underK

/-- The caller's canonical underlying sub-account address. -/
def userUnderK : Pubkey := getAssociatedTokenAddress userK underK

/-- The caller's canonical principal sub-account address. -/
def userPrinK : Pubkey := getAssociatedTokenAddress userK pmintK

/-- The caller's canonical yield sub-account address. -/
def userYieldK : Pubkey := getAssociatedTokenAddress userK ymintK

/-- The scenario's persisted tokenizer record. -/
def st0 : TokenizerState :=
  { bump := 255, authority := authK, principalTokenMint := pmintK,
    yieldTokenMint := ymintK, underlyingMint := underK,
    underlyingVault := vaultK, expiryDate := expiry0, fixedApy := 7 }

/-- The record account, owned by the program and holding `st0`. -/
def recAcc : AccountInfo := ⟨tokK, crateId, false, 5, serializeState st0, none⟩

/-- The authority account, signing. -/
def authAcc : AccountInfo := ⟨authK, systemProgramId, true, 9, [], none⟩

/-- The caller account, signing. -/
def userAcc : AccountInfo := ⟨userK, systemProgramId, true, 9, [], none⟩

/-- The vault token account with balance `bal`. -/
def vaultAcc (bal : Nat) : AccountInfo := ⟨vaultK, splTokenId, false, 2, [], some bal⟩

/-- The underlying mint account. -/
def underMintAcc : AccountInfo := ⟨underK, splTokenId, false, 2, [], none⟩

/-- The principal mint account. -/
def pmintAcc : AccountInfo := ⟨pmintK, splTokenId, false, 2, [], none⟩

/-- The yield mint account. -/
def ymintAcc : AccountInfo := ⟨ymintK, splTokenId, false, 2, [], none⟩

/-- The caller's underlying token account with balance `bal`. -/
def userUnderAcc (bal : Nat) : AccountInfo :=
  ⟨userUnderK, splTokenId, false, 2, [], some bal⟩

/-- The caller's underlying token account before it exists: at the right
address but still owned by the system program, with no data. -/
def userUnderAbsent : AccountInfo := ⟨userUnderK, systemProgramId, false, 0, [], none⟩

/-- The caller's principal token account with balance `bal`. -/
def userPrinAcc (bal : Nat) : AccountInfo :=
  ⟨userPrinK, splTokenId, false, 2, [], some bal⟩

/-- The caller's yield token account with balance `bal`. -/
def userYieldAcc (bal : Nat) : AccountInfo :=
  ⟨userYieldK, splTokenId, false, 2, [], some bal⟩

/-- The SPL token program account. -/
def tokenProgAcc : AccountInfo := ⟨splTokenId, 99, false, 1, [], none⟩

/-- The system program account. -/
def sysProgAcc : AccountInfo := ⟨systemProgramId, 99, false, 1, [], none⟩

/-- The associated-token-account program account. -/
def atokenProgAcc : AccountInfo := ⟨atokenProgramId, 99, false, 1, [], none⟩

/-- A record account at the correct derived address but not owned by the
protocol and with empty data (never initialized). -/
def recNotOwned : AccountInfo := ⟨tokK, systemProgramId, false, 0, [], none⟩

/-- Predicate on an event: every token-service quantity it carries (a
transfer, mint or burn amount) equals `n`; events without a token
quantity satisfy it vacuously. -/
def amountOkEv (n : Nat) : Event → Prop
  | .tokTransfer _ _ _ m => m = n
  | .tokMintTo _ _ _ m => m = n
  | .tokBurn _ _ _ m => m = n
  | _ => True

/-- Every token-service quantity in the trace equals `n`. -/
def evAmounts (n : Nat) : List Event → Prop
  | [] => True
  | ev :: t => amountOkEv n ev ∧ evAmounts n t

/-- Sequencing of two handler runs under the host's all-or-nothing
semantics, as the composite instructions realize it: the second run
happens only when the first succeeded, traces are concatenated, and a
successful composite reports the enclosing instruction's account
list. -/
def runBoth (first second : HRes) (accs : List AccountInfo) : HRes :=
  match first with
  | .panicked e1 => .panicked e1
  | .fail er e1 => .fail er e1
  | .ok _ e1 =>
    match second with
    | .panicked e2 => .panicked (e1 ++ e2)
    | .fail er e2 => .fail er (e1 ++ e2)
    | .ok _ e2 => .ok accs (e1 ++ e2)

/-- Modelled from the spec: the composite Terminate as the claim states
it — construct the TerminateMints sub-account list (record, authority,
principal mint, yield mint, token service, base account service) and
invoke the TerminateMints handler on it, then construct the
TerminateTokenizer sub-account list (record, authority, vault, token
service, base account service) and invoke the TerminateTokenizer
handler on it, each handler receiving its own bundle.  This is the
claimed behavior, for comparison with `processTerminate` (the source
passes each handler the other's bundle). -/
def claimedTerminate (accs : List AccountInfo) (now : Int) : HRes :=
  match accs with
  | tokenizer :: authority :: vault :: pmint :: ymint :: tokenProg ::
      sysProg :: furtherAccs =>
    let terminateTokenizerAccounts :=
      [tokenizer, authority, vault, tokenProg, sysProg]
    let terminateMintAccounts :=
      [tokenizer, authority, pmint, ymint, tokenProg, sysProg]
    match processTerminateMints terminateMintAccounts now with
    | .panicked e1 => .panicked e1
    | .fail er e1 => .fail er e1
    | .ok _ e1 =>
      match processTerminateLysergicTokenizer terminateTokenizerAccounts now with
      | .panicked e2 => .panicked (e1 ++ e2)
      | .fail er e2 => .fail er (e1 ++ e2)
      | .ok accs2 e2 =>
        let tokenizerAfter := accs2.headD tokenizer
        .ok (tokenizerAfter :: authority :: vault :: pmint :: ymint ::
             tokenProg :: sysProg :: furtherAccs) (e1 ++ e2)
  | _ => .fail .notEnoughAccountKeys []

/-!
Theorems.
-/

/-- The composite Terminate reads seven accounts, then hands the
five-account tokenizer bundle to `processTerminateMints`, which needs
six accounts — so every run of the composite stops with
`NotEnoughAccountKeys` before any check or delegated call. -/
theorem terminateAlwaysNotEnoughAccounts (accs : List AccountInfo) (now : Int) :
    processTerminate accs now = .fail .notEnoughAccountKeys [] := by
  rcases accs with _ | ⟨a1, _ | ⟨a2, _ | ⟨a3, _ | ⟨a4, _ | ⟨a5, _ | ⟨a6, _ | ⟨a7, rest⟩⟩⟩⟩⟩⟩⟩ <;> rfl

/-- The redemption tail can only fail with `IncorrectProgramId` or
`NotEnoughAccountKeys`, and always with an empty trace. -/
theorem finishRedemptionFail {user userUnderlying tokenProg : AccountInfo}
    {m : Pubkey} {rest accs : List AccountInfo} {b p : Event} {e : Err}
    {evs : List Event}
    (h : finishRedemption user userUnderlying tokenProg m rest accs b p =
      .fail e evs) :
    (e = .incorrectProgramId ∨ e = .notEnoughAccountKeys) ∧ evs = [] := by
  unfold finishRedemption at h
  iterate 3 (all_goals (try split at h))
  all_goals simp_all

/-- A successful redemption tail returns exactly the account list it was
handed. -/
theorem finishRedemptionOk {user userUnderlying tokenProg : AccountInfo}
    {m : Pubkey} {rest accs accs2 : List AccountInfo} {b p : Event}
    {evs : List Event}
    (h : finishRedemption user userUnderlying tokenProg m rest accs b p =
      .ok accs2 evs) :
    accs2 = accs := by
  unfold finishRedemption at h
  iterate 3 (all_goals (try split at h))
  all_goals simp_all

/-- All token quantities in the redemption tail's trace come from its
burn and payout events. -/
theorem finishRedemptionEvents {user userUnderlying tokenProg : AccountInfo}
    {m : Pubkey} {rest accs : List AccountInfo} {b p : Event} {n : Nat}
    (hb : amountOkEv n b) (hp : amountOkEv n p) :
    evAmounts n (finishRedemption user userUnderlying tokenProg m rest accs
      b p).events := by
  unfold finishRedemption
  iterate 3 (all_goals (try split))
  all_goals simp_all [HRes.events, evAmounts, amountOkEv]

/-- Claim C2 (code_bug).  The source builds the two sub-bundles with the
contents the claim describes, but passes each to the other handler:
`process_terminate_mints` receives the five-account tokenizer bundle
and immediately runs out of accounts, so the composite Terminate always
fails with `NotEnoughAccountKeys` — it is not equivalent to the claimed
composition, which on a well-formed matured instance with an empty
vault succeeds and performs the mint closes and lamport sweeps. -/
theorem terminateCompositeSwapped :
    (∀ (accs : List AccountInfo) (now : Int),
        processTerminate accs now = .fail .notEnoughAccountKeys []) ∧
    claimedTerminate [recAcc, authAcc, vaultAcc 0, pmintAcc, ymintAcc,
        tokenProgAcc, sysProgAcc] 1001 =
      .ok [⟨tokK, systemProgramId, false, 5, [], none⟩, authAcc, vaultAcc 0,
           pmintAcc, ymintAcc, tokenProgAcc, sysProgAcc]
        [.tokCloseAccount pmintK authK tokK, .tokCloseAccount ymintK authK tokK,
         .sysTransfer tokK authK 5, .sysTransfer tokK authK 5] :=
  ⟨terminateAlwaysNotEnoughAccounts, by decide⟩

/-- Claim C6 (code_bug).  `process_deposit_underlying` slices the record
data to `STATE_SIZE` bytes and deserializes it before the ownership
check: with the record at its correct address but never initialized
(owned by the system program, zero-length data), DepositUnderlying
panics on the out-of-range slice instead of returning
`TokenizerNotInitialized`, while `process_tokenize_principal` — which
checks ownership first, as the spec prescribes — returns exactly that
error on the same record. -/
theorem depositOwnerCheckAfterParse :
    processDepositUnderlying [recNotOwned, vaultAcc 0, userAcc, userUnderAcc 10,
        tokenProgAcc] 1 0 = .panicked [] ∧
    processTokenizePrincipal [recNotOwned, pmintAcc, userAcc, userPrinAcc 0,
        tokenProgAcc] 1 0 = .fail .tokenizerNotInitialized [] ∧
    HRes.panicked [] ≠ HRes.fail Err.tokenizerNotInitialized [] := by decide

/-- Claim C7 (code_bug).  When the caller's underlying sub-account is
absent, both RedeemMaturePrincipal and ClaimYield do delegate an
associated-account creation before the payout — but with the token
account's own address in the wallet position and the caller's address
in the token-program position, instead of the claimed
`(payer = caller, wallet = caller, mint, ledger token service)`. -/
theorem lazyCreateWrongArguments :
    processRedeemMaturePrincipal [recAcc, vaultAcc 5000000, underMintAcc, pmintAcc,
        userAcc, userUnderAbsent, userPrinAcc 5000000, tokenProgAcc, sysProgAcc] 5 1001
      = .ok [recAcc, vaultAcc 5000000, underMintAcc, pmintAcc, userAcc,
             userUnderAbsent, userPrinAcc 5000000, tokenProgAcc, sysProgAcc]
          [.createATA userK userUnderK underK userK,
           .tokBurn userPrinK pmintK userK 5000000,
           .tokTransfer vaultK userUnderK tokK 5000000] ∧
    processClaimYield [recAcc, vaultAcc 5000000, underMintAcc, ymintAcc,
        userAcc, userUnderAbsent, userYieldAcc 5000000, tokenProgAcc, sysProgAcc] 5 0
      = .ok [recAcc, vaultAcc 5000000, underMintAcc, ymintAcc, userAcc,
             userUnderAbsent, userYieldAcc 5000000, tokenProgAcc, sysProgAcc]
          [.createATA userK userUnderK underK userK,
           .tokBurn userYieldK ymintK userK 5000000,
           .tokTransfer vaultK userUnderK tokK 5000000] ∧
    Event.createATA userK userUnderK underK userK ≠
      Event.createATA userK userK underK splTokenId ∧
    userUnderK ≠ userK := by decide

/-- Claim C1, counterexample.  TerminateMints succeeds on a matured
instance even though the supplied vault account holds a nonzero balance
(the handler never reads a vault), and TerminateTokenizer reports
`ExpiryDateNotElapsed` — not `VaultNotEmpty` — when the vault is
nonempty but maturity has not passed. -/
theorem terminationErrorOrderCounterexample :
    processTerminateMints [recAcc, authAcc, pmintAcc, ymintAcc, tokenProgAcc,
        sysProgAcc, vaultAcc 5] 1001 =
      .ok [recAcc, authAcc, pmintAcc, ymintAcc, tokenProgAcc, sysProgAcc, vaultAcc 5]
        [.tokCloseAccount pmintK authK tokK, .tokCloseAccount ymintK authK tokK,
         .sysTransfer tokK authK 5] ∧
    processTerminateLysergicTokenizer [recAcc, authAcc, vaultAcc 1, tokenProgAcc,
        sysProgAcc] 0 = .fail .expiryDateNotElapsed [] := by decide

/-- Claim C3, counterexample.  At `now` exactly equal to the maturity
timestamp both tokenizing instructions pass the time gate and mint —
the claim says any `now ≥ maturity` fails with `ExpiryDateElapsed`. -/
theorem tokenizeTimeGateCounterexample :
    st0.expiryDate = 1000 ∧ parseState recAcc.data = some st0 ∧
    processTokenizePrincipal [recAcc, pmintAcc, userAcc, userPrinAcc 0,
        tokenProgAcc] 2 1000
      = .ok [recAcc, pmintAcc, userAcc, userPrinAcc 0, tokenProgAcc]
          [.tokMintTo pmintK userPrinK tokK 2000000] ∧
    processTokenizeYield [recAcc, ymintAcc, userAcc, userYieldAcc 0,
        tokenProgAcc] 2 1000
      = .ok [recAcc, ymintAcc, userAcc, userYieldAcc 0, tokenProgAcc]
          [.tokMintTo ymintK userYieldK tokK 2000000] := by decide

/-- Claim C4, counterexample.  At `now` exactly equal to the maturity
timestamp RedeemMaturePrincipal fails with `ExpiryDateNotElapsed` — the
claim says every `now ≥ maturity`, including equality, passes the
gate. -/
theorem redeemMatureTimeGateCounterexample :
    st0.expiryDate = 1000 ∧
    processRedeemMaturePrincipal [recAcc, vaultAcc 5000000, underMintAcc, pmintAcc,
        userAcc, userUnderAcc 0, userPrinAcc 5000000, tokenProgAcc] 5 1000
      = .fail .expiryDateNotElapsed [] := by decide

/-- Claim C5, counterexample.  The conversion goes through `f64`: at
`amount = 10^12 + 1` the quantity delegated to the token service is
`uiAmountToAmount6 (10^12+1)`, which differs from the exact integer
product `(10^12+1)·10^6` (the `f64` product rounds to a multiple of
128); at `amount = 2^63` the saturating cast clips the result to
`u64::MAX`, far from the integer product. -/
theorem scaledAmountConversionCounterexample :
    processDepositUnderlying [recAcc, vaultAcc 0, userAcc, userUnderAcc 10,
        tokenProgAcc] (10 ^ 12 + 1) 0
      = .ok [recAcc, vaultAcc 0, userAcc, userUnderAcc 10, tokenProgAcc]
          [.tokTransfer userUnderK vaultK userK (uiAmountToAmount6 (10 ^ 12 + 1))] ∧
    uiAmountToAmount6 (10 ^ 12 + 1) ≠ (10 ^ 12 + 1) * 1000000 ∧
    uiAmountToAmount6 (2 ^ 63) ≠ 2 ^ 63 * 1000000 := by decide

/-- Claim C8 (confirmed).  With all supplied accounts correctly derived
for the `(underlying_mint, maturity)` pair and the record already owned
by the protocol, a second InitializeTokenizer fails with
`TokenizerAlreadyInitialized` and delegates no call at all before the
failure (the event trace at the failure is empty: no account creation,
no write; a failing instruction has no observable effect, so the
existing record bytes are untouched). -/
theorem secondInitRejected (tokenizer authority vault underlyingMintAcc
      tokenProg sysProg atokenProg : AccountInfo) (rest : List AccountInfo)
    (um pm ym : Pubkey) (ed : Int) (apy : Nat) (rentMin : Nat → Nat)
    (h1 : tokenizer.key = (getTokenizerAddress underlyingMintAcc.key ed).1)
    (h2 : authority.isSigner = true)
    (h3 : vault.key = getAssociatedTokenAddress tokenizer.key um)
    (h4 : um = underlyingMintAcc.key)
    (h5 : pm = (getPrincipalMintAddress (getTokenizerAddress underlyingMintAcc.key ed).1).1)
    (h6 : ym = (getYieldMintAddress (getTokenizerAddress underlyingMintAcc.key ed).1).1)
    (h7 : tokenProg.key = splTokenId)
    (h8 : atokenProg.key = atokenProgramId)
    (h9 : sysProg.key = systemProgramId)
    (h10 : tokenizer.owner = crateId) :
    processInitializeLysergicTokenizer
        (tokenizer :: authority :: vault :: underlyingMintAcc :: tokenProg ::
          sysProg :: atokenProg :: rest) um pm ym (some ed) apy rentMin
      = .fail .tokenizerAlreadyInitialized [] := by
  simp [processInitializeLysergicTokenizer, h1, h2, h3, h4, h5, h6, h7, h8, h9, h10]

/-- Claim C8, witness: the scenario instance re-initialized. -/
theorem secondInitRejectedWitness :
    processInitializeLysergicTokenizer
        [recAcc, authAcc, vaultAcc 0, underMintAcc, tokenProgAcc, sysProgAcc,
         atokenProgAcc] underK pmintK ymintK (some expiry0) 7 (fun _ => 3)
      = .fail .tokenizerAlreadyInitialized [] :=
  secondInitRejected recAcc authAcc (vaultAcc 0) underMintAcc tokenProgAcc
    sysProgAcc atokenProgAcc [] underK pmintK ymintK expiry0 7 (fun _ => 3)
    (by decide) (by decide) (by decide) (by decide) (by decide) (by decide)
    (by decide) (by decide) (by decide) (by decide)

/-- Claim C3 (corrected).  On an initialized record the tokenizing
instructions fail with `ExpiryDateElapsed` exactly when `now` is
strictly past the maturity timestamp (`expiry_date < now` in the
source); any `now ≤ maturity` — boundary included — passes the time
gate, contrary to the claim's `now ≥ maturity` failure condition. -/
theorem tokenizeTimeGate (tokenizer mintAcc user userTokenAcc
      tokenProg : AccountInfo) (rest : List AccountInfo) (a : Nat) (now : Int)
    (st : TokenizerState)
    (hown : tokenizer.owner = crateId)
    (hparse : parseState tokenizer.data = some st) :
    (processTokenizePrincipal (tokenizer :: mintAcc :: user :: userTokenAcc ::
        tokenProg :: rest) a now = .fail .expiryDateElapsed [] ↔
      st.expiryDate < now) ∧
    (processTokenizeYield (tokenizer :: mintAcc :: user :: userTokenAcc ::
        tokenProg :: rest) a now = .fail .expiryDateElapsed [] ↔
      st.expiryDate < now) := by
  constructor
  · constructor
    · intro h
      by_contra hc
      simp [processTokenizePrincipal, hown, hparse, hc] at h
      iterate 8 (all_goals (try split at h))
      all_goals simp_all
    · intro hlt
      simp [processTokenizePrincipal, hown, hparse, hlt]
  · constructor
    · intro h
      by_contra hc
      simp [processTokenizeYield, hown, hparse, hc] at h
      iterate 8 (all_goals (try split at h))
      all_goals simp_all
    · intro hlt
      simp [processTokenizeYield, hown, hparse, hlt]

/-- Claim C3, witness: strictly past maturity both tokenizing
instructions fail with `ExpiryDateElapsed` on the scenario instance. -/
theorem tokenizeTimeGateWitness :
    processTokenizePrincipal [recAcc, pmintAcc, userAcc, userPrinAcc 0,
        tokenProgAcc] 2 1001 = .fail .expiryDateElapsed [] ∧
    processTokenizeYield [recAcc, pmintAcc, userAcc, userPrinAcc 0,
        tokenProgAcc] 2 1001 = .fail .expiryDateElapsed [] :=
  ⟨(tokenizeTimeGate recAcc pmintAcc userAcc (userPrinAcc 0) tokenProgAcc []
      2 1001 st0 (by decide) (by decide)).1.mpr (by decide),
   (tokenizeTimeGate recAcc pmintAcc userAcc (userPrinAcc 0) tokenProgAcc []
      2 1001 st0 (by decide) (by decide)).2.mpr (by decide)⟩

/-- Claim C4 (corrected).  On an initialized record
RedeemMaturePrincipal fails with `ExpiryDateNotElapsed` exactly when
`now ≤ maturity` (the source rejects `expiry_date >= now`), so the gate
passes only strictly after maturity — at `now = maturity` the
instruction still fails, contrary to the claim. -/
theorem redeemMatureTimeGate (tokenizer vault underlyingMintAcc pmint user
      userUnderlying userPrincipal tokenProg : AccountInfo)
    (rest : List AccountInfo) (a : Nat) (now : Int) (st : TokenizerState)
    (hown : tokenizer.owner = crateId)
    (hparse : parseState tokenizer.data = some st) :
    processRedeemMaturePrincipal (tokenizer :: vault :: underlyingMintAcc ::
        pmint :: user :: userUnderlying :: userPrincipal :: tokenProg :: rest)
        a now = .fail .expiryDateNotElapsed [] ↔ now ≤ st.expiryDate := by
  constructor
  · intro h
    by_contra hc
    simp [processRedeemMaturePrincipal, processRedeemPrincipal, hown, hparse,
      hc] at h
    iterate 12 (all_goals (try split at h))
    all_goals first
      | exact absurd (finishRedemptionFail h).1 (by decide)
      | simp_all
  · intro hle
    simp [processRedeemMaturePrincipal, processRedeemPrincipal, hown, hparse,
      hle]

/-- Claim C4, witness: strictly past maturity the gate passes (the run
proceeds to the burn and payout), and at any `now ≤ maturity` it fails
with `ExpiryDateNotElapsed`, on the scenario instance. -/
theorem redeemMatureTimeGateWitness :
    processRedeemMaturePrincipal [recAcc, vaultAcc 5000000, underMintAcc,
        pmintAcc, userAcc, userUnderAcc 0, userPrinAcc 5000000, tokenProgAcc]
        5 999 = .fail .expiryDateNotElapsed [] :=
  (redeemMatureTimeGate recAcc (vaultAcc 5000000) underMintAcc pmintAcc
    userAcc (userUnderAcc 0) (userPrinAcc 5000000) tokenProgAcc [] 5 999 st0
    (by decide) (by decide)).mpr (by decide)

/-- Appending traces preserves the all-amounts-equal property. -/
theorem evAmountsAppend {n : Nat} : ∀ {l1 l2 : List Event},
    evAmounts n l1 → evAmounts n l2 → evAmounts n (l1 ++ l2) := by
  intro l1 l2 h1 h2
  induction l1 with
  | nil => exact h2
  | cons ev t ih => exact ⟨h1.1, ih h1.2⟩

/-- Case split for the redemption tail: it fails with an empty trace or
returns the handed account list with a trace whose token quantities are
those of its burn and payout events. -/
theorem finishRedemptionCases {user uu tp : AccountInfo} {m : Pubkey}
    {rest accs : List AccountInfo} {b p : Event} {n : Nat} {r : HRes}
    (h : finishRedemption user uu tp m rest accs b p = r)
    (hb : amountOkEv n b) (hp : amountOkEv n p) :
    (∃ e, r = .fail e [] ∧
      (e = .incorrectProgramId ∨ e = .notEnoughAccountKeys)) ∨
    (∃ evs, r = .ok accs evs ∧ evAmounts n evs) := by
  unfold finishRedemption at h
  iterate 3 (all_goals (try split at h))
  all_goals first
    | exact Or.inl ⟨_, h.symm, by decide⟩
    | exact Or.inr ⟨_, h.symm, by simp_all [evAmounts, amountOkEv]⟩

/-- Case split for DepositUnderlying: every run fails with an empty
trace, panics with an empty trace, or succeeds returning its account
list unchanged with the single transfer of the converted amount. -/
theorem depositUnderlyingCases (accs : List AccountInfo) (a : Nat) (now : Int)
    (r : HRes) (h : processDepositUnderlying accs a now = r) :
    (∃ e, r = .fail e []) ∨ r = .panicked [] ∨
    (∃ evs, r = .ok accs evs ∧ evAmounts (uiAmountToAmount6 a) evs) := by
  rcases accs with _ | ⟨t, _ | ⟨v, _ | ⟨u, _ | ⟨uu, _ | ⟨tp, rest⟩⟩⟩⟩⟩
  all_goals (try (exact Or.inl ⟨_, h.symm⟩))
  simp only [processDepositUnderlying] at h
  iterate 10 (all_goals (try split at h))
  all_goals first
    | exact Or.inl ⟨_, h.symm⟩
    | exact Or.inr (Or.inl h.symm)
    | exact Or.inr (Or.inr ⟨_, h.symm, by simp [evAmounts, amountOkEv]⟩)

/-- Case split for TokenizePrincipal: every run fails with an empty
trace or succeeds returning its account list unchanged, with every
token quantity in the trace equal to the converted amount. -/
theorem tokenizePrincipalCases (accs : List AccountInfo) (a : Nat) (now : Int)
    (r : HRes) (h : processTokenizePrincipal accs a now = r) :
    (∃ e, r = .fail e []) ∨
    (∃ evs, r = .ok accs evs ∧ evAmounts (uiAmountToAmount6 a) evs) := by
  rcases accs with _ | ⟨t, _ | ⟨pm, _ | ⟨u, _ | ⟨up, _ | ⟨tp, rest⟩⟩⟩⟩⟩
  all_goals (try (exact Or.inl ⟨_, h.symm⟩))
  simp only [processTokenizePrincipal] at h
  iterate 10 (all_goals (try split at h))
  all_goals first
    | exact Or.inl ⟨_, h.symm⟩
    | exact Or.inr ⟨_, h.symm, by simp [evAmounts, amountOkEv]⟩

/-- Case split for TokenizeYield, symmetric to
`tokenizePrincipalCases`. -/
theorem tokenizeYieldCases (accs : List AccountInfo) (a : Nat) (now : Int)
    (r : HRes) (h : processTokenizeYield accs a now = r) :
    (∃ e, r = .fail e []) ∨
    (∃ evs, r = .ok accs evs ∧ evAmounts (uiAmountToAmount6 a) evs) := by
  rcases accs with _ | ⟨t, _ | ⟨ym, _ | ⟨u, _ | ⟨uy, _ | ⟨tp, rest⟩⟩⟩⟩⟩
  all_goals (try (exact Or.inl ⟨_, h.symm⟩))
  simp only [processTokenizeYield] at h
  iterate 10 (all_goals (try split at h))
  all_goals first
    | exact Or.inl ⟨_, h.symm⟩
    | exact Or.inr ⟨_, h.symm, by simp [evAmounts, amountOkEv]⟩

/-- Case split for the principal-redemption handler in either mode. -/
theorem redeemPrincipalCases (accs : List AccountInfo) (mode : RedemptionMode)
    (a : Nat) (now : Int) (r : HRes)
    (h : processRedeemPrincipal accs mode a now = r) :
    (∃ e, r = .fail e [] ∧ (e = .expiryDateNotElapsed → mode = .mature)) ∨
    (∃ evs, r = .ok accs evs ∧ evAmounts (uiAmountToAmount6 a) evs) := by
  rcases accs with _ | ⟨t, _ | ⟨v, _ | ⟨um, _ | ⟨pm, _ | ⟨u, _ | ⟨uu, _ |
    ⟨up, _ | ⟨tp, rest⟩⟩⟩⟩⟩⟩⟩⟩
  all_goals (try (exact Or.inl ⟨_, h.symm, fun he => absurd he (by decide)⟩))
  simp only [processRedeemPrincipal] at h
  by_cases c1 : t.owner = crateId
  case neg => rw [if_pos c1] at h; exact Or.inl ⟨_, h.symm, fun he => absurd he (by decide)⟩
  rw [if_neg (not_ne_iff.mpr c1)] at h
  rcases hps : parseState t.data with _ | st
  · simp only [hps] at h; exact Or.inl ⟨_, h.symm, fun he => absurd he (by decide)⟩
  simp only [hps] at h
  by_cases cg : mode = RedemptionMode.mature ∧ st.expiryDate ≥ now
  case pos => rw [if_pos cg] at h; exact Or.inl ⟨_, h.symm, fun _ => cg.1⟩
  rw [if_neg cg] at h
  by_cases c2 : v.owner = splTokenId
  case neg => rw [if_pos c2] at h; exact Or.inl ⟨_, h.symm, fun he => absurd he (by decide)⟩
  rw [if_neg (not_ne_iff.mpr c2)] at h
  by_cases c3 : v.key = st.underlyingVault
  case neg => rw [if_pos c3] at h; exact Or.inl ⟨_, h.symm, fun he => absurd he (by decide)⟩
  rw [if_neg (not_ne_iff.mpr c3)] at h
  by_cases c4 : um.key = st.underlyingMint
  case neg => rw [if_pos c4] at h; exact Or.inl ⟨_, h.symm, fun he => absurd he (by decide)⟩
  rw [if_neg (not_ne_iff.mpr c4)] at h
  by_cases c5 : pm.key = st.principalTokenMint
  case neg => rw [if_pos c5] at h; exact Or.inl ⟨_, h.symm, fun he => absurd he (by decide)⟩
  rw [if_neg (not_ne_iff.mpr c5)] at h
  by_cases c6 : u.isSigner = true
  case neg =>
    rw [Bool.not_eq_true] at c6
    rw [if_pos (show (!u.isSigner) = true by rw [c6]; rfl)] at h
    exact Or.inl ⟨_, h.symm, fun he => absurd he (by decide)⟩
  rw [if_neg (show ¬((!u.isSigner) = true) by rw [c6]; decide)] at h
  by_cases c7 : uu.key = getAssociatedTokenAddress u.key st.underlyingMint
  case neg => rw [if_pos c7] at h; exact Or.inl ⟨_, h.symm, fun he => absurd he (by decide)⟩
  rw [if_neg (not_ne_iff.mpr c7)] at h
  by_cases c8 : up.key = getAssociatedTokenAddress u.key st.principalTokenMint
  case neg => rw [if_pos c8] at h; exact Or.inl ⟨_, h.symm, fun he => absurd he (by decide)⟩
  rw [if_neg (not_ne_iff.mpr c8)] at h
  by_cases c9 : tp.key = splTokenId
  case neg => rw [if_pos c9] at h; exact Or.inl ⟨_, h.symm, fun he => absurd he (by decide)⟩
  rw [if_neg (not_ne_iff.mpr c9)] at h
  rcases hsp : up.splAmount with _ | bal
  · simp only [hsp] at h; exact Or.inl ⟨_, h.symm, fun he => absurd he (by decide)⟩
  simp only [hsp] at h
  by_cases c10 : bal < uiAmountToAmount6 a
  case pos => rw [if_pos c10] at h; exact Or.inl ⟨_, h.symm, fun he => absurd he (by decide)⟩
  rw [if_neg c10] at h
  rcases finishRedemptionCases h rfl rfl with ⟨e, he, hor⟩ | hok
  · refine Or.inl ⟨e, he, fun hee => ?_⟩
    subst hee
    rcases hor with h' | h' <;> exact Err.noConfusion h'
  · exact Or.inr hok

/-- Case split for ClaimYield. -/
theorem claimYieldCases (accs : List AccountInfo) (a : Nat) (now : Int)
    (r : HRes) (h : processClaimYield accs a now = r) :
    (∃ e, r = .fail e []) ∨
    (∃ evs, r = .ok accs evs ∧ evAmounts (uiAmountToAmount6 a) evs) := by
  rcases accs with _ | ⟨t, _ | ⟨v, _ | ⟨um, _ | ⟨ym, _ | ⟨u, _ | ⟨uu, _ |
    ⟨uy, _ | ⟨tp, rest⟩⟩⟩⟩⟩⟩⟩⟩
  all_goals (try (exact Or.inl ⟨_, h.symm⟩))
  simp only [processClaimYield] at h
  iterate 12 (all_goals (try split at h))
  all_goals first
    | exact Or.inl ⟨_, h.symm⟩
    | exact (finishRedemptionCases h rfl rfl).imp
        (fun hp => ⟨hp.choose, hp.choose_spec.1⟩) id

/-- Case split for TerminateMints: every run fails with an error other
than `VaultNotEmpty` (the handler reads no vault account), or succeeds
with its account list unchanged. -/
theorem terminateMintsCases (accs : List AccountInfo) (now : Int)
    (r : HRes) (h : processTerminateMints accs now = r) :
    (∃ e, r = .fail e [] ∧ e ≠ .vaultNotEmpty) ∨
    (∃ evs, r = .ok accs evs) := by
  rcases accs with _ | ⟨t, _ | ⟨au, _ | ⟨pm, _ | ⟨ym, _ | ⟨tp, _ | ⟨sp, rest⟩⟩⟩⟩⟩⟩
  all_goals (try (exact Or.inl ⟨_, h.symm, by decide⟩))
  simp only [processTerminateMints] at h
  iterate 12 (all_goals (try split at h))
  all_goals first
    | exact Or.inl ⟨_, h.symm, by decide⟩
    | exact Or.inr ⟨_, h.symm⟩

/-- Every token quantity DepositUnderlying delegates equals the
converted amount, on any run. -/
theorem depositUnderlyingEvents (accs : List AccountInfo) (a : Nat) (now : Int) :
    evAmounts (uiAmountToAmount6 a) (processDepositUnderlying accs a now).events := by
  rcases depositUnderlyingCases accs a now _ rfl with ⟨e, he⟩ | hp | ⟨evs, hok, ha⟩
  · rw [he]; exact trivial
  · rw [hp]; exact trivial
  · rw [hok]; exact ha

/-- Every token quantity TokenizePrincipal delegates equals the
converted amount, on any run. -/
theorem tokenizePrincipalEvents (accs : List AccountInfo) (a : Nat) (now : Int) :
    evAmounts (uiAmountToAmount6 a) (processTokenizePrincipal accs a now).events := by
  rcases tokenizePrincipalCases accs a now _ rfl with ⟨e, he⟩ | ⟨evs, hok, ha⟩
  · rw [he]; exact trivial
  · rw [hok]; exact ha

/-- Every token quantity TokenizeYield delegates equals the converted
amount, on any run. -/
theorem tokenizeYieldEvents (accs : List AccountInfo) (a : Nat) (now : Int) :
    evAmounts (uiAmountToAmount6 a) (processTokenizeYield accs a now).events := by
  rcases tokenizeYieldCases accs a now _ rfl with ⟨e, he⟩ | ⟨evs, hok, ha⟩
  · rw [he]; exact trivial
  · rw [hok]; exact ha

/-- Every token quantity the principal-redemption handler delegates
equals the converted amount, in either mode, on any run. -/
theorem redeemPrincipalEvents (accs : List AccountInfo) (mode : RedemptionMode)
    (a : Nat) (now : Int) :
    evAmounts (uiAmountToAmount6 a) (processRedeemPrincipal accs mode a now).events := by
  rcases redeemPrincipalCases accs mode a now _ rfl with ⟨e, he, _⟩ | ⟨evs, hok, ha⟩
  · rw [he]; exact trivial
  · rw [hok]; exact ha

/-- Every token quantity ClaimYield delegates equals the converted
amount, on any run. -/
theorem claimYieldEvents (accs : List AccountInfo) (a : Nat) (now : Int) :
    evAmounts (uiAmountToAmount6 a) (processClaimYield accs a now).events := by
  rcases claimYieldCases accs a now _ rfl with ⟨e, he⟩ | ⟨evs, hok, ha⟩
  · rw [he]; exact trivial
  · rw [hok]; exact ha

/-- Every token quantity DepositAndTokenize delegates equals the
converted amount, on any run (the composite concatenates its
sub-handlers' traces). -/
theorem depositAndTokenizeEvents (accs : List AccountInfo) (a : Nat) (now : Int) :
    evAmounts (uiAmountToAmount6 a) (processDepositAndTokenize accs a now).events := by
  rcases accs with _ | ⟨t, _ | ⟨v, _ | ⟨pm, _ | ⟨ym, _ | ⟨u, _ | ⟨uu, _ |
    ⟨up, _ | ⟨uy, _ | ⟨tp, _ | ⟨sp, _ | ⟨ap, rest⟩⟩⟩⟩⟩⟩⟩⟩⟩⟩⟩
  all_goals (try (exact trivial))
  have hd := depositUnderlyingEvents [t, v, u, uu, tp] a now
  have hpr := tokenizePrincipalEvents [t, pm, u, up, tp, sp, ap] a now
  have hyl := tokenizeYieldEvents [t, ym, u, uy, tp, sp, ap] a now
  simp only [processDepositAndTokenize]
  rcases h1 : processDepositUnderlying [t, v, u, uu, tp] a now with
    ⟨a1, e1⟩ | ⟨er1, e1⟩ | e1 <;> rw [h1] at hd <;> simp only [h1, HRes.events]
  rotate_left
  · exact hd
  · exact hd
  rcases h2 : processTokenizePrincipal [t, pm, u, up, tp, sp, ap] a now with
    ⟨a2, e2⟩ | ⟨er2, e2⟩ | e2 <;> rw [h2] at hpr <;> simp only [HRes.events]
  rotate_left
  · exact evAmountsAppend hd hpr
  · exact evAmountsAppend hd hpr
  rcases h3 : processTokenizeYield [t, ym, u, uy, tp, sp, ap] a now with
    ⟨a3, e3⟩ | ⟨er3, e3⟩ | e3 <;> rw [h3] at hyl <;> simp only [HRes.events]
  all_goals exact evAmountsAppend (evAmountsAppend hd hpr) hyl

/-- Every token quantity RedeemPrincipalAndYield delegates equals the
converted amount, on any run. -/
theorem redeemPrincipalAndYieldEvents (accs : List AccountInfo) (a : Nat)
    (now : Int) :
    evAmounts (uiAmountToAmount6 a)
      (processRedeemPrincipalAndYield accs a now).events := by
  rcases accs with _ | ⟨t, _ | ⟨v, _ | ⟨um, _ | ⟨pm, _ | ⟨ym, _ | ⟨u, _ |
    ⟨uu, _ | ⟨up, _ | ⟨uy, _ | ⟨tp, rest⟩⟩⟩⟩⟩⟩⟩⟩⟩⟩
  all_goals (try (exact trivial))
  have hr := redeemPrincipalEvents [t, v, um, pm, u, uu, up, tp] .principalYield a now
  have hc := claimYieldEvents [t, v, um, ym, u, uu, uy, tp] a now
  simp only [processRedeemPrincipalAndYield]
  rcases h1 : processRedeemPrincipal [t, v, um, pm, u, uu, up, tp]
      .principalYield a now with ⟨a1, e1⟩ | ⟨er1, e1⟩ | e1 <;>
    rw [h1] at hr <;> simp only [h1, HRes.events]
  rotate_left
  · exact hr
  · exact hr
  rcases h2 : processClaimYield [t, v, um, ym, u, uu, uy, tp] a now with
    ⟨a2, e2⟩ | ⟨er2, e2⟩ | e2 <;> rw [h2] at hc <;> simp only [HRes.events]
  all_goals exact evAmountsAppend hr hc

/-- A successful DepositAndTokenize returns its account list unchanged. -/
theorem depositAndTokenizeOkAccs (accs accs2 : List AccountInfo) (a : Nat)
    (now : Int) (evs : List Event)
    (h : processDepositAndTokenize accs a now = .ok accs2 evs) : accs2 = accs := by
  rcases accs with _ | ⟨t, _ | ⟨v, _ | ⟨pm, _ | ⟨ym, _ | ⟨u, _ | ⟨uu, _ |
    ⟨up, _ | ⟨uy, _ | ⟨tp, _ | ⟨sp, _ | ⟨ap, rest⟩⟩⟩⟩⟩⟩⟩⟩⟩⟩⟩
  all_goals (try (exact HRes.noConfusion h))
  simp only [processDepositAndTokenize] at h
  iterate 4 (all_goals (try split at h))
  all_goals first
    | exact HRes.noConfusion h
    | exact ((HRes.ok.inj h).1).symm

/-- A successful RedeemPrincipalAndYield returns its account list
unchanged. -/
theorem redeemPrincipalAndYieldOkAccs (accs accs2 : List AccountInfo) (a : Nat)
    (now : Int) (evs : List Event)
    (h : processRedeemPrincipalAndYield accs a now = .ok accs2 evs) :
    accs2 = accs := by
  rcases accs with _ | ⟨t, _ | ⟨v, _ | ⟨um, _ | ⟨pm, _ | ⟨ym, _ | ⟨u, _ |
    ⟨uu, _ | ⟨up, _ | ⟨uy, _ | ⟨tp, rest⟩⟩⟩⟩⟩⟩⟩⟩⟩⟩
  all_goals (try (exact HRes.noConfusion h))
  simp only [processRedeemPrincipalAndYield] at h
  iterate 3 (all_goals (try split at h))
  all_goals first
    | exact HRes.noConfusion h
    | exact ((HRes.ok.inj h).1).symm

/-- The `f64` conversion is exact whenever the integer product fits in
the 53-bit significand. -/
theorem uiAmountExactSmall (a : Nat) (h : a * 1000000 < 2 ^ 53) :
    uiAmountToAmount6 a = a * 1000000 := by
  have hle : a ≤ a * 1000000 := by
    calc a = a * 1 := (Nat.mul_one a).symm
    _ ≤ a * 1000000 := Nat.mul_le_mul_left a (by norm_num)
  have ha : a < 2 ^ 53 := lt_of_le_of_lt hle h
  have r1 : rndF64 a = a := by unfold rndF64; rw [if_pos ha]
  have r2 : rndF64 (a * 1000000) = a * 1000000 := by unfold rndF64; rw [if_pos h]
  simp only [uiAmountToAmount6, r1, r2]
  rw [if_neg (Nat.not_le.mpr (lt_trans h (by norm_num)))]

/-- Claim C5 (corrected).  Every token-service quantity any of the
amount-carrying handlers delegates equals `uiAmountToAmount6 a` — the
`f64` conversion the source performs — and that conversion equals the
exact integer product `a·10⁶` only when the product fits in the 53-bit
`f64` significand; beyond that it rounds (and saturates at `u64::MAX`),
as the counterexample shows. -/
theorem scaledAmountConversion :
    (∀ a : Nat, a * 1000000 < 2 ^ 53 → uiAmountToAmount6 a = a * 1000000) ∧
    (∀ (accs : List AccountInfo) (a : Nat) (now : Int),
      evAmounts (uiAmountToAmount6 a) (processDepositUnderlying accs a now).events ∧
      evAmounts (uiAmountToAmount6 a) (processTokenizePrincipal accs a now).events ∧
      evAmounts (uiAmountToAmount6 a) (processTokenizeYield accs a now).events ∧
      evAmounts (uiAmountToAmount6 a) (processRedeemMaturePrincipal accs a now).events ∧
      evAmounts (uiAmountToAmount6 a) (processClaimYield accs a now).events ∧
      evAmounts (uiAmountToAmount6 a) (processDepositAndTokenize accs a now).events ∧
      evAmounts (uiAmountToAmount6 a) (processRedeemPrincipalAndYield accs a now).events) :=
  ⟨uiAmountExactSmall, fun accs a now =>
    ⟨depositUnderlyingEvents accs a now,
     tokenizePrincipalEvents accs a now,
     tokenizeYieldEvents accs a now,
     redeemPrincipalEvents accs .mature a now,
     claimYieldEvents accs a now,
     depositAndTokenizeEvents accs a now,
     redeemPrincipalAndYieldEvents accs a now⟩⟩

/-- Claim C5, witness: at amount 3 the conversion is exactly 3·10⁶ and
the deposit trace carries it. -/
theorem scaledAmountConversionWitness :
    (3 * 1000000 < 2 ^ 53 ∧ uiAmountToAmount6 3 = 3 * 1000000) ∧
    evAmounts (uiAmountToAmount6 3)
      (processDepositUnderlying [recAcc, vaultAcc 0, userAcc, userUnderAcc 10,
        tokenProgAcc] 3 0).events :=
  ⟨⟨by decide, scaledAmountConversion.1 3 (by decide)⟩,
   (scaledAmountConversion.2 [recAcc, vaultAcc 0, userAcc, userUnderAcc 10,
     tokenProgAcc] 3 0).1⟩

/-- Claim C9 (confirmed).  RedeemPrincipalAndYield is exactly the
sequential composition of the principal-redemption leg in
`PrincipalYield` mode (whose time gate is skipped: that leg can never
fail with `ExpiryDateNotElapsed`, at any clock reading) on the
redeem-principal bundle, followed by ClaimYield for the same amount on
the claim-yield bundle. -/
theorem redeemPrincipalAndYieldComposition :
    (∀ (t v um pm ym u uu up uy tp : AccountInfo) (rest : List AccountInfo)
        (a : Nat) (now : Int),
      processRedeemPrincipalAndYield (t :: v :: um :: pm :: ym :: u :: uu ::
          up :: uy :: tp :: rest) a now
        = runBoth
            (processRedeemPrincipal [t, v, um, pm, u, uu, up, tp]
              .principalYield a now)
            (processClaimYield [t, v, um, ym, u, uu, uy, tp] a now)
            (t :: v :: um :: pm :: ym :: u :: uu :: up :: uy :: tp :: rest)) ∧
    (∀ (accs : List AccountInfo) (a : Nat) (now : Int) (evs : List Event),
      processRedeemPrincipal accs .principalYield a now ≠
        .fail .expiryDateNotElapsed evs) := by
  constructor
  · intro t v um pm ym u uu up uy tp rest a now
    rfl
  · intro accs a now evs h
    rcases redeemPrincipalCases accs .principalYield a now _ h with
      ⟨e, he, himp⟩ | ⟨evs2, hok, _⟩
    · exact RedemptionMode.noConfusion (himp (HRes.fail.inj he).1.symm)
    · exact HRes.noConfusion hok

/-- Claim C9, witness: the composite on the scenario instance at a time
before maturity equals the composition, and the principal leg does not
fail with `ExpiryDateNotElapsed` there. -/
theorem redeemPrincipalAndYieldCompositionWitness :
    processRedeemPrincipalAndYield [recAcc, vaultAcc 5000000, underMintAcc,
        pmintAcc, ymintAcc, userAcc, userUnderAcc 0, userPrinAcc 5000000,
        userYieldAcc 5000000, tokenProgAcc] 5 0
      = runBoth
          (processRedeemPrincipal [recAcc, vaultAcc 5000000, underMintAcc,
            pmintAcc, userAcc, userUnderAcc 0, userPrinAcc 5000000,
            tokenProgAcc] .principalYield 5 0)
          (processClaimYield [recAcc, vaultAcc 5000000, underMintAcc, ymintAcc,
            userAcc, userUnderAcc 0, userYieldAcc 5000000, tokenProgAcc] 5 0)
          [recAcc, vaultAcc 5000000, underMintAcc, pmintAcc, ymintAcc, userAcc,
           userUnderAcc 0, userPrinAcc 5000000, userYieldAcc 5000000,
           tokenProgAcc] ∧
    processRedeemPrincipal [recAcc, vaultAcc 5000000, underMintAcc, pmintAcc,
        userAcc, userUnderAcc 0, userPrinAcc 5000000, tokenProgAcc]
        .principalYield 5 0 ≠ .fail .expiryDateNotElapsed [] :=
  ⟨redeemPrincipalAndYieldComposition.1 recAcc (vaultAcc 5000000) underMintAcc
      pmintAcc ymintAcc userAcc (userUnderAcc 0) (userPrinAcc 5000000)
      (userYieldAcc 5000000) tokenProgAcc [] 5 0,
   redeemPrincipalAndYieldComposition.2 [recAcc, vaultAcc 5000000, underMintAcc,
      pmintAcc, userAcc, userUnderAcc 0, userPrinAcc 5000000, tokenProgAcc]
      5 0 []⟩

/-- Claim C10 (confirmed).  None of the seven post-initialization
instructions performs a direct write to any account: a successful run
returns every account snapshot — in particular the tokenizer record's
stored data — exactly as supplied (and a failing run has no observable
effect at all: the host rolls the instruction back, which the embedding
reflects by carrying no account state on `fail`/`panicked`).  Only
initialization and termination write the record. -/
theorem recordDataFrame :
    (∀ (accs : List AccountInfo) (a : Nat) (now : Int) accs2 evs,
      processDepositUnderlying accs a now = .ok accs2 evs → accs2 = accs) ∧
    (∀ (accs : List AccountInfo) (a : Nat) (now : Int) accs2 evs,
      processTokenizePrincipal accs a now = .ok accs2 evs → accs2 = accs) ∧
    (∀ (accs : List AccountInfo) (a : Nat) (now : Int) accs2 evs,
      processTokenizeYield accs a now = .ok accs2 evs → accs2 = accs) ∧
    (∀ (accs : List AccountInfo) (a : Nat) (now : Int) accs2 evs,
      processDepositAndTokenize accs a now = .ok accs2 evs → accs2 = accs) ∧
    (∀ (accs : List AccountInfo) (a : Nat) (now : Int) accs2 evs,
      processRedeemMaturePrincipal accs a now = .ok accs2 evs → accs2 = accs) ∧
    (∀ (accs : List AccountInfo) (a : Nat) (now : Int) accs2 evs,
      processClaimYield accs a now = .ok accs2 evs → accs2 = accs) ∧
    (∀ (accs : List AccountInfo) (a : Nat) (now : Int) accs2 evs,
      processRedeemPrincipalAndYield accs a now = .ok accs2 evs → accs2 = accs) := by
  refine ⟨?_, ?_, ?_, ?_, ?_, ?_, ?_⟩
  · intro accs a now accs2 evs h
    rcases depositUnderlyingCases accs a now _ h with ⟨e, he⟩ | hp | ⟨evs0, hok, _⟩
    · exact HRes.noConfusion he
    · exact HRes.noConfusion hp
    · exact (HRes.ok.inj hok).1
  · intro accs a now accs2 evs h
    rcases tokenizePrincipalCases accs a now _ h with ⟨e, he⟩ | ⟨evs0, hok, _⟩
    · exact HRes.noConfusion he
    · exact (HRes.ok.inj hok).1
  · intro accs a now accs2 evs h
    rcases tokenizeYieldCases accs a now _ h with ⟨e, he⟩ | ⟨evs0, hok, _⟩
    · exact HRes.noConfusion he
    · exact (HRes.ok.inj hok).1
  · intro accs a now accs2 evs h
    exact depositAndTokenizeOkAccs accs accs2 a now evs h
  · intro accs a now accs2 evs h
    rcases redeemPrincipalCases accs .mature a now _ h with ⟨e, he, _⟩ | ⟨evs0, hok, _⟩
    · exact HRes.noConfusion he
    · exact (HRes.ok.inj hok).1
  · intro accs a now accs2 evs h
    rcases claimYieldCases accs a now _ h with ⟨e, he⟩ | ⟨evs0, hok, _⟩
    · exact HRes.noConfusion he
    · exact (HRes.ok.inj hok).1
  · intro accs a now accs2 evs h
    exact redeemPrincipalAndYieldOkAccs accs accs2 a now evs h

/-- Claim C10, witness: a successful deposit on the scenario instance
leaves the account snapshots — including the record data — unchanged. -/
theorem recordDataFrameWitness :
    processDepositUnderlying [recAcc, vaultAcc 0, userAcc, userUnderAcc 10,
        tokenProgAcc] 3 0
      = .ok [recAcc, vaultAcc 0, userAcc, userUnderAcc 10, tokenProgAcc]
          [.tokTransfer userUnderK vaultK userK 3000000] ∧
    [recAcc, vaultAcc 0, userAcc, userUnderAcc 10, tokenProgAcc]
      = [recAcc, vaultAcc 0, userAcc, userUnderAcc 10, tokenProgAcc] :=
  ⟨by decide,
   recordDataFrame.1 [recAcc, vaultAcc 0, userAcc, userUnderAcc 10, tokenProgAcc]
     3 0 [recAcc, vaultAcc 0, userAcc, userUnderAcc 10, tokenProgAcc]
     [.tokTransfer userUnderK vaultK userK 3000000] (by decide)⟩

/-- Claim C1 (corrected).  For TerminateTokenizer the expiry check runs
before the vault check: whenever `now ≤ maturity` (boundary included)
the instruction fails with `ExpiryDateNotElapsed` even if the vault is
nonempty, and `VaultNotEmpty` is reported only once maturity is
strictly past.  TerminateMints performs the same expiry check but no
vault check at all — it can never fail with `VaultNotEmpty`.  The
composite Terminate mis-wires its sub-bundles and always fails with
`NotEnoughAccountKeys`. -/
theorem terminationErrorOrder :
    (∀ (tokenizer authority vault tokenProg sysProg : AccountInfo)
        (rest : List AccountInfo) (now : Int) (st : TokenizerState),
      tokenizer.owner = crateId → authority.isSigner = true →
      parseState tokenizer.data = some st → authority.key = st.authority →
      now ≤ st.expiryDate →
      processTerminateLysergicTokenizer (tokenizer :: authority :: vault ::
        tokenProg :: sysProg :: rest) now = .fail .expiryDateNotElapsed []) ∧
    (∀ (tokenizer authority vault tokenProg sysProg : AccountInfo)
        (rest : List AccountInfo) (now : Int) (st : TokenizerState) (bal : Nat),
      tokenizer.owner = crateId → authority.isSigner = true →
      parseState tokenizer.data = some st → authority.key = st.authority →
      st.expiryDate < now → vault.splAmount = some bal → bal ≠ 0 →
      processTerminateLysergicTokenizer (tokenizer :: authority :: vault ::
        tokenProg :: sysProg :: rest) now = .fail .vaultNotEmpty []) ∧
    (∀ (tokenizer authority pmint ymint tokenProg sysProg : AccountInfo)
        (rest : List AccountInfo) (now : Int) (st : TokenizerState),
      tokenizer.owner = crateId → authority.isSigner = true →
      parseState tokenizer.data = some st → authority.key = st.authority →
      now ≤ st.expiryDate →
      processTerminateMints (tokenizer :: authority :: pmint :: ymint ::
        tokenProg :: sysProg :: rest) now = .fail .expiryDateNotElapsed []) ∧
    (∀ (accs : List AccountInfo) (now : Int) (evs : List Event),
      processTerminateMints accs now ≠ .fail .vaultNotEmpty evs) ∧
    (∀ (accs : List AccountInfo) (now : Int),
      processTerminate accs now = .fail .notEnoughAccountKeys []) := by
  refine ⟨?_, ?_, ?_, ?_, terminateAlwaysNotEnoughAccounts⟩
  · intro tokenizer authority vault tokenProg sysProg rest now st h1 h2 h3 h4 h5
    simp [processTerminateLysergicTokenizer, h1, h2, h3, h4, h5]
  · intro tokenizer authority vault tokenProg sysProg rest now st bal h1 h2 h3
      h4 h5 h6 h7
    simp [processTerminateLysergicTokenizer, h1, h2, h3, h4, h6, h7,
      not_le.mpr h5]
  · intro tokenizer authority pmint ymint tokenProg sysProg rest now st
      h1 h2 h3 h4 h5
    simp [processTerminateMints, h1, h2, h3, h4, h5]
  · intro accs now evs h
    rcases terminateMintsCases accs now _ h with ⟨e, he, hne⟩ | ⟨evs2, hok⟩
    · exact hne (HRes.fail.inj he).1.symm
    · exact HRes.noConfusion hok

/-- Claim C1, witness: on the scenario instance, strictly past maturity
with a nonempty vault TerminateTokenizer reports `VaultNotEmpty`, and at
`now = 0` (before maturity) it reports `ExpiryDateNotElapsed`. -/
theorem terminationErrorOrderWitness :
    processTerminateLysergicTokenizer [recAcc, authAcc, vaultAcc 3,
        tokenProgAcc, sysProgAcc] 1001 = .fail .vaultNotEmpty [] ∧
    processTerminateLysergicTokenizer [recAcc, authAcc, vaultAcc 3,
        tokenProgAcc, sysProgAcc] 0 = .fail .expiryDateNotElapsed [] :=
  ⟨terminationErrorOrder.2.1 recAcc authAcc (vaultAcc 3) tokenProgAcc
      sysProgAcc [] 1001 st0 3 (by decide) (by decide) (by decide) (by decide)
      (by decide) (by decide) (by decide),
   terminationErrorOrder.1 recAcc authAcc (vaultAcc 3) tokenProgAcc sysProgAcc
      [] 0 st0 (by decide) (by decide) (by decide) (by decide) (by decide)⟩
